import Mathlib

/-!
Shallow embedding of the `HeliactylDB` multi-backend key-value store
(`src/unnamed/part_000`, module `HeliactylNextDB`).

The class wraps either an embedded SQLite file or a networked
PostgreSQL pool behind one flat key → JSON-envelope table.  We embed:

* the JSON data model: stored rows are `(fullKey, envelope)` pairs where
  the envelope is the serialized `{value, expires}` object written by
  `set`/`setMultiple` (an absent `expires` models `undefined`, which
  `JSON.stringify` omits);
* the public storage methods `get`, `set`, `delete`, `has`, `getAll`,
  `increment`, `setMultiple`, `cleanupExpired`, with the backend-specific
  branches (`dbType === 'sqlite'` vs PostgreSQL) modelled separately
  where they differ observably;
* the serialized operation queue of `executeQuery` / `processQueue`
  (`queue`, `processingLock`, `maxQueueSize`) as an explicit state
  machine over submit/finish events;
* the constructor's backend classification and field initialization.

Machine epochs (`Date.now()`) are `Nat` milliseconds passed in
explicitly as `now`.  JavaScript numbers are modelled as `Int` (the
claims under study only involve integers).  The JSON round trip
`JSON.parse (JSON.stringify e)` is the identity on well-formed
envelopes, so the store holds envelopes structurally.
-/

/-- JSON-serializable JavaScript values (numbers restricted to integers). -/
inductive Json where
  | null
  | bool (b : Bool)
  | num (n : Int)
  | str (s : String)
  | arr (elems : List Json)
  | obj (fields : List (String × Json))

/-- JavaScript falsiness of a `Json` value (`undefined` is represented
by `Option.none` at use sites, never inside `Json`). -/
def jsFalsy : Json → Bool
  | .null => true
  | .bool b => !b
  | .num n => n == 0
  | .str s => s == ""
  | .arr _ => false
  | .obj _ => false

/-- The stored `{value, expires}` wrapper (`set`, lines 463-467).
`expires = none` models an absent/undefined `expires` field. -/
structure Envelope where
  value : Json
  expires : Option Nat

/-- The physical table: rows of `(key, value-envelope)`, one row per key
(the primary-key constraint); later public operations keep keys unique
via upsert. -/
abbrev Store := List (String × Envelope)

/-- `` `${this.namespace}:${key}` `` — the namespaced physical key. -/
def fullKey (ns key : String) : String := ns ++ ":" ++ key

/-- The expiry test used by every TTL-aware read
(`this.ttlSupport && parsed.expires && parsed.expires < Date.now()`):
note that a stored `expires` of `0` is falsy in JavaScript and therefore
never counts as expired. -/
def isExpired (ttlSupport : Bool) (env : Envelope) (now : Nat) : Bool :=
  ttlSupport &&
    (match env.expires with
     | some e => e != 0 && decide (e < now)
     | none => false)

/-- `INSERT OR REPLACE` / `INSERT ... ON CONFLICT (key) DO UPDATE`:
replace any existing row for `k` with the new envelope. -/
def upsert (st : Store) (k : String) (env : Envelope) : Store :=
  st.filter (fun row => row.1 != k) ++ [(k, env)]

/-- `const expires = this.ttlSupport && ttl ? Date.now() + ttl : undefined`
(line 463).  A `ttl` of `0` is falsy, so it records no expiry. -/
def setExpires (ttlSupport : Bool) (now : Nat) : Option Nat → Option Nat
  | some t => if ttlSupport && t != 0 then some (now + t) else none
  | none => none

/-- `set(key, value, ttl)` (lines 459-491).  Both backend branches
upsert the serialized envelope under the namespaced key; `!key` (the
empty string) rejects with `Key is required`. -/
def set (ttlSupport : Bool) (now : Nat) (ns : String) (st : Store)
    (key : String) (value : Json) (ttl : Option Nat) : Except String Store :=
  if key = "" then .error "Key is required"
  else .ok (upsert st (fullKey ns key) { value := value, expires := setExpires ttlSupport now ttl })

/-- The caller-visible value computed by `get` (lines 395-447) when the
lazy expiry delete does not itself fail: row absent ⇒ `undefined`;
row expired (TTL enabled) ⇒ `undefined`; otherwise `parsed.value`. -/
def getValue (ttlSupport : Bool) (now : Nat) (ns : String) (st : Store)
    (key : String) : Option Json :=
  match st.lookup (fullKey ns key) with
  | none => none
  | some env => if isExpired ttlSupport env now then none else some env.value

/-- `get(key)`: the `!key` guard plus the shared read semantics. -/
def get (ttlSupport : Bool) (now : Nat) (ns : String) (st : Store)
    (key : String) : Except String (Option Json) :=
  if key = "" then .error "Key is required"
  else .ok (getValue ttlSupport now ns st key)

/-- `DELETE FROM t WHERE key = fullKey` — the physical effect of
`delete(key)` on both backends. -/
def deleteRow (ns : String) (st : Store) (key : String) : Store :=
  st.filter (fun row => row.1 != fullKey ns key)

/-- `delete(key)` (lines 501-523). -/
def delete (ns : String) (st : Store) (key : String) : Except String Store :=
  if key = "" then .error "Key is required"
  else .ok (deleteRow ns st key)

/-- `has(key)` (lines 561-584): `SELECT 1 ... WHERE key = ?` and
`resolve(!!row)` — it reports physical row presence and never inspects
the envelope's `expires`. -/
def has (ns : String) (st : Store) (key : String) : Except String Bool :=
  if key = "" then .error "Key is required"
  else .ok (st.lookup (fullKey ns key)).isSome

/-- `get`, SQLite branch (lines 400-423), on a handle with TTL support:
when the row is expired the delete is fire-and-forget
(`this.delete(key).catch(console.error)`) and the call resolves
`undefined` whether or not that delete later fails.  `deleteFails` is
the oracle for the detached delete's backend outcome; the result pairs
the caller-visible answer with the eventual physical store. -/
def getSqlite (ttlSupport : Bool) (now : Nat) (ns : String) (st : Store)
    (key : String) (deleteFails : Bool) : Except String (Option Json) × Store :=
  if key = "" then (.error "Key is required", st)
  else
    match st.lookup (fullKey ns key) with
    | none => (.ok none, st)
    | some env =>
      if isExpired ttlSupport env now then
        (.ok none, if deleteFails then st else deleteRow ns st key)
      else (.ok (some env.value), st)

/-- `get`, PostgreSQL branch (lines 424-446): on an expired row the
delete is awaited inside the `try` (`await this.delete(key)`), so a
failing delete is rethrown as `Failed to get value: ...` to the caller
of `get`. -/
def getPostgres (ttlSupport : Bool) (now : Nat) (ns : String) (st : Store)
    (key : String) (deleteFails : Bool) : Except String (Option Json) × Store :=
  if key = "" then (.error "Key is required", st)
  else
    match st.lookup (fullKey ns key) with
    | none => (.ok none, st)
    | some env =>
      if isExpired ttlSupport env now then
        if deleteFails then (.error "Failed to get value: Failed to delete value", st)
        else (.ok none, deleteRow ns st key)
      else (.ok (some env.value), st)

/-- `s.startsWith(pre)` on character lists. -/
def strStartsWith : List Char → List Char → Bool
  | _, [] => true
  | [], _ :: _ => false
  | c :: cs, p :: ps => c == p && strStartsWith cs ps

/-- `s.includes(pat)` on character lists. -/
def strHasSub (pat : List Char) : List Char → Bool
  | [] => strStartsWith [] pat
  | c :: rest => strStartsWith (c :: rest) pat || strHasSub pat rest

/-- JavaScript `row.key.replace(pat, '')`: remove the first occurrence
of `pat` (used by `getAll`/`search` to strip the namespace prefix). -/
def removeFirstOcc (pat : List Char) : List Char → List Char
  | [] => []
  | c :: rest =>
    if strStartsWith (c :: rest) pat then (c :: rest).drop pat.length
    else c :: removeFirstOcc pat rest

/-- `getAll()` (lines 678-723): all rows whose key matches
`LIKE '{ns}:%'`, namespace prefix stripped via `replace`, TTL-expired
rows skipped; identical logic on both backends.  (Rows that fail to
`JSON.parse` are skipped and logged; the model's rows are all
well-formed envelopes.) -/
def getAll (ttlSupport : Bool) (now : Nat) (ns : String) (st : Store) :
    List (String × Json) :=
  (st.filter (fun row => strStartsWith row.1.data (ns ++ ":").data)).filterMap
    (fun row =>
      let key := String.mk (removeFirstOcc (ns ++ ":").data row.1.data)
      if isExpired ttlSupport row.2 now then none else some (key, row.2.value))

/-- `await this.get(key) || 0` (line 734): an absent or falsy current
value is coerced to the number `0` before the `typeof` check. -/
def jsOrZero : Option Json → Json
  | none => .num 0
  | some j => if jsFalsy j then .num 0 else j

/-- `increment(key, amount)` (lines 733-741): read via `get`, coerce
falsy/absent to `0`, reject only a remaining (truthy) non-number, then
`set` the sum without a ttl and return it. -/
def increment (ttlSupport : Bool) (now : Nat) (ns : String) (st : Store)
    (key : String) (amount : Int) : Except String (Store × Int) :=
  match get ttlSupport now ns st key with
  | .error e => .error e
  | .ok got =>
    match jsOrZero got with
    | .num n =>
      match set ttlSupport now ns st key (.num (n + amount)) none with
      | .error e => .error e
      | .ok st2 => .ok (st2, n + amount)
    | _ => .error "Value must be a number to increment"

/-- `cleanupExpired` (lines 364-385): no-op unless `ttlSupport`; else a
single backend-native `DELETE ... WHERE expires < now` (SQL comparison:
a missing `expires` never compares true). -/
def cleanupExpired (ttlSupport : Bool) (now : Nat) (st : Store) : Store :=
  if !ttlSupport then st
  else
    st.filter (fun row =>
      !(match row.2.expires with
        | some e => decide (e < now)
        | none => false))

/-- `setMultiple`, PostgreSQL branch inner loop (lines 836-849): inserts
run one at a time inside `BEGIN`; the first backend failure aborts the
loop with the thrown error.  `insFails` is the oracle saying which
physical keys' inserts the backend rejects. -/
def pgBatchLoop (ttlSupport : Bool) (now : Nat) (ns : String)
    (ttl : Option Nat) (insFails : String → Bool) :
    List (String × Json) → Store → Except String Store
  | [], acc => .ok acc
  | (k, v) :: rest, acc =>
    if insFails (fullKey ns k) then .error "insert failed"
    else
      pgBatchLoop ttlSupport now ns ttl insFails rest
        (upsert acc (fullKey ns k) { value := v, expires := setExpires ttlSupport now ttl })

/-- `setMultiple`, PostgreSQL branch (lines 831-861): `BEGIN`, the
insert loop, then `COMMIT`; any thrown error triggers `ROLLBACK` (the
tentative writes are discarded, the store reverts) and the call rejects
with `Failed to set multiple values: ...`. -/
def setMultiplePostgres (ttlSupport : Bool) (now : Nat) (ns : String)
    (st : Store) (entries : List (String × Json)) (ttl : Option Nat)
    (insFails : String → Bool) : Except String Unit × Store :=
  match pgBatchLoop ttlSupport now ns ttl insFails entries st with
  | .ok st2 => (.ok (), st2)
  | .error e => (.error ("Failed to set multiple values: " ++ e), st)

/-- `setMultiple`, SQLite branch inner loop (lines 807-828):
`stmt.run(fullKey, data)` is issued with no completion callback, so a
backend failure of one entry is invisible to the enclosing promise and
does not stop the loop — only a synchronous JavaScript throw while
building an entry (e.g. `JSON.stringify` on a circular value,
oracle `serFails`) lands in the `catch` and rolls back.  `runFails` is
the backend-failure oracle for the individual inserts. -/
def sqliteBatchLoop (ttlSupport : Bool) (now : Nat) (ns : String)
    (ttl : Option Nat) (runFails : String → Bool) (serFails : String → Bool) :
    List (String × Json) → Store → Except String Store
  | [], acc => .ok acc
  | (k, v) :: rest, acc =>
    if serFails k then .error "synchronous serialization error"
    else
      sqliteBatchLoop ttlSupport now ns ttl runFails serFails rest
        (if runFails (fullKey ns k) then acc
         else upsert acc (fullKey ns k) { value := v, expires := setExpires ttlSupport now ttl })

/-- `setMultiple`, SQLite branch (lines 803-830): on a synchronous throw
the `catch` issues `ROLLBACK` (store reverts) and rejects; otherwise
`COMMIT` persists whichever individual inserts the backend accepted and
the promise resolves even if some of them failed. -/
def setMultipleSqlite (ttlSupport : Bool) (now : Nat) (ns : String)
    (st : Store) (entries : List (String × Json)) (ttl : Option Nat)
    (runFails : String → Bool) (serFails : String → Bool) : Except String Unit × Store :=
  match sqliteBatchLoop ttlSupport now ns ttl runFails serFails entries st with
  | .ok st2 => (.ok (), st2)
  | .error e => (.error e, st)

/-- The two backend kinds chosen by the constructor (line 51-52,
`this.dbType`). -/
inductive DbType where
  | sqlite
  | postgresql
deriving DecidableEq

/-- The public storage methods named by the serialization claim. -/
inductive StorageMethod where
  | get | set | delete | has | clear | getAll | search | setMultiple
deriving DecidableEq

/-- Whether a public method's implementation routes its backend call
through `executeQuery` (the serialized operation queue).  Read off each
method body of `src/unnamed/part_000`: every SQLite branch returns
`this.executeQuery(() => ...)`, while every PostgreSQL branch awaits
`this.pool.query(...)` (or `pool.connect()` for `setMultiple`) directly,
never touching the queue. -/
def usesOperationQueue : DbType → StorageMethod → Bool
  | .sqlite, .get => true          -- line 401
  | .sqlite, .set => true          -- line 470
  | .sqlite, .delete => true       -- line 507
  | .sqlite, .has => true          -- line 567
  | .sqlite, .clear => true        -- line 535
  | .sqlite, .getAll => true       -- line 682
  | .sqlite, .search => true       -- line 766
  | .sqlite, .setMultiple => true  -- line 804
  | .postgresql, .get => false         -- lines 426-445: direct pool.query
  | .postgresql, .set => false         -- lines 481-489
  | .postgresql, .delete => false      -- lines 516-522
  | .postgresql, .has => false         -- lines 576-583
  | .postgresql, .clear => false       -- lines 544-549
  | .postgresql, .getAll => false      -- lines 703-722
  | .postgresql, .search => false      -- lines 779-789
  | .postgresql, .setMultiple => false -- lines 831-861: pool.connect + client.query

/-- The queue state owned by one database handle (constructor lines
64-69): the pending FIFO `queue`, the `processingLock`/in-flight slot,
and — for specification purposes — the completion history and the
admission history of operations, identified by ids. -/
structure QueueState where
  queue : List Nat
  inFlight : Option Nat
  completed : List Nat
  accepted : List Nat
  maxQueueSize : Nat

/-- `processQueue` (lines 286-293) up to the point the backend call
starts: with the lock free and the queue non-empty, shift the head and
mark it in flight; otherwise return unchanged. -/
def processQueueStep (s : QueueState) : QueueState :=
  match s.inFlight, s.queue with
  | none, op :: rest => { s with queue := rest, inFlight := some op }
  | _, _ => s

/-- `executeQuery` (lines 254-278): reject with `Database queue is full`
when `queue.length >= maxQueueSize` — before pushing, so the rejected
submission never reaches the backend; otherwise push the operation and
invoke `processQueue` in the same tick. -/
def submitStep (s : QueueState) (id : Nat) : QueueState × Option String :=
  if s.maxQueueSize ≤ s.queue.length then (s, some "Database queue is full")
  else
    (processQueueStep { s with queue := s.queue ++ [id], accepted := s.accepted ++ [id] },
     none)

/-- The tail of one `processQueue` run (lines 296-325): the in-flight
operation's backend call settles (success or failure), the `finally`
block releases the lock, and `setImmediate(() => this.processQueue())`
starts the next queued item. -/
def finishStep (s : QueueState) : QueueState :=
  match s.inFlight with
  | some op =>
    processQueueStep { s with inFlight := none, completed := s.completed ++ [op] }
  | none => s

/-- The externally visible queue events: a caller submitting an
operation, or the current backend call settling. -/
inductive QueueEvent where
  | submit (id : Nat)
  | finish

/-- Run a sequence of queue events. -/
def runEvents (s : QueueState) : List QueueEvent → QueueState
  | [] => s
  | .submit id :: rest => runEvents (submitStep s id).1 rest
  | .finish :: rest => runEvents (finishStep s) rest

/-- The queue's ordering invariant: completions, then the in-flight
operation, then the pending queue, spell out exactly the admitted
operations in submission order. -/
def QueueInv (s : QueueState) : Prop :=
  s.completed ++ s.inFlight.toList ++ s.queue = s.accepted

/-- Submit each id of a list in order within one synchronous tick
(no backend call can settle in between), collecting each submission's
rejection (`some error`) or admission (`none`). -/
def submitBurst : QueueState → List Nat → QueueState × List (Option String)
  | s, [] => (s, [])
  | s, id :: rest =>
    let out := submitStep s id
    let tail := submitBurst out.1 rest
    (tail.1, out.2 :: tail.2)

/-- The queue state of a handle freshly constructed over SQLite: the
constructor's `initializeDatabase()` (line 81) synchronously ran
`executeQuery` (line 154), whose operation was shifted into the
in-flight slot (id 0 here) and is awaiting file I/O; the pending queue
is empty and `maxQueueSize` is the default 10000 (line 69). -/
def freshSqliteHandleState : QueueState :=
  { queue := [], inFlight := some 0, completed := [], accepted := [0], maxQueueSize := 10000 }

/-- Rolling operation statistics (constructor lines 67-68). -/
structure Stats where
  totalOperationTime : Nat
  operationCount : Nat
deriving DecidableEq

/-- `updateStats` (lines 334-343): accumulate time and count, then reset
to the most recent sample once the count exceeds 1,000,000. -/
def updateStats (stats : Stats) (operationTime : Nat) : Stats :=
  let s : Stats :=
    { totalOperationTime := stats.totalOperationTime + operationTime,
      operationCount := stats.operationCount + 1 }
  if 1000000 < s.operationCount then
    { totalOperationTime := operationTime, operationCount := 1 }
  else s

/-- The statistics effect of one completed queued operation in
`processQueue` (lines 296-316): the success path calls
`this.updateStats(operationTime)` (line 299); the `catch` path only
logs and rejects — it never touches the statistics. -/
def completeOperation (stats : Stats) (success : Bool) (operationTime : Nat) : Stats :=
  if success then updateStats stats operationTime else stats

/-- The JavaScript values a caller can pass as the constructor's
`dbPath` argument; `object url` carries the object's `url` field
(`none` when absent). -/
inductive JsConfig where
  | undef
  | nullv
  | boolean (b : Bool)
  | number (n : Int)
  | string (s : String)
  | object (url : Option JsConfig)

/-- JavaScript falsiness of a `JsConfig` value (`!dbPath`). -/
def jsConfigFalsy : JsConfig → Bool
  | .undef => true
  | .nullv => true
  | .boolean b => !b
  | .number n => n == 0
  | .string s => s == ""
  | .object _ => false

/-- Lines 42-49: unwrap `dbPath.url` when `dbPath` is an object with a
truthy `url`, accept a string, and otherwise throw.  A truthy non-string
`url` crashes at the subsequent `this.dbPath.startsWith` call, which we
also record as a construction error. -/
def extractPath : JsConfig → Except String String
  | .object urlField =>
    match urlField with
    | some u =>
      if jsConfigFalsy u then
        .error "Database path must be a string or an object with a url property"
      else
        match u with
        | .string s => .ok s
        | _ => .error "TypeError: this.dbPath.startsWith is not a function"
    | none => .error "Database path must be a string or an object with a url property"
  | .string s => .ok s
  | _ => .error "Database path must be a string or an object with a url property"

/-- Lines 51-60: prefix classification of the unwrapped connection
string.  `isSQLite` is checked first. -/
def classifyPath (p : String) : Except String DbType :=
  let isPostgres := strStartsWith p.data "postgresql://".data || strStartsWith p.data "postgres://".data
  let isSQLite := strStartsWith p.data "sqlite://".data || (!isPostgres && !strHasSub "://".data p.data)
  if isSQLite then .ok .sqlite
  else if isPostgres then .ok .postgresql
  else .error "Unsupported database type"

/-- The constructor's backend selection (lines 37-60): the `!dbPath`
guard, the string/object unwrapping, then prefix classification. -/
def constructorModel (dbPath : JsConfig) : Except String DbType :=
  if jsConfigFalsy dbPath then .error "Database path is required"
  else
    match extractPath dbPath with
    | .error e => .error e
    | .ok p => classifyPath p

/-- The two construction-time facts the TTL claims depend on: the value
assigned to `this.ttlSupport` (line 63) and whether the guard
`if (this.ttlSupport)` at line 89 scheduled the 60-second
`cleanupExpired` interval.  The guard runs inside the constructor,
after line 63 and before the handle is ever visible to a caller, so it
reads the hard-coded `false`. -/
structure HandleInit where
  ttlSupport : Bool
  sweepScheduled : Bool

/-- The constructor's initialization of those fields. -/
def constructorInit : HandleInit :=
  let ttlSupport := false
  { ttlSupport := ttlSupport, sweepScheduled := ttlSupport }

/-! ### Helper lemmas: association-list lookups -/

lemma lookup_filter_ne {β : Type} (l : List (String × β)) (k : String) :
    (l.filter (fun row => row.1 != k)).lookup k = none := by
  induction l with
  | nil => rfl
  | cons a l ih =>
    obtain ⟨ak, av⟩ := a
    by_cases h : ak = k
    · simp [List.filter_cons, h, ih]
    · simp only [List.filter_cons]
      rw [if_pos (by simp [h]), List.lookup_cons]
      have : (k == ak) = false := by simp [Ne.symm h]
      simp [this, ih]

lemma lookup_append_of_none {β : Type} (l1 l2 : List (String × β)) (k : String)
    (h : l1.lookup k = none) : (l1 ++ l2).lookup k = l2.lookup k := by
  induction l1 with
  | nil => rfl
  | cons a l ih =>
    obtain ⟨ak, av⟩ := a
    rw [List.cons_append, List.lookup_cons]
    rw [List.lookup_cons] at h
    cases hk : (k == ak) with
    | true => simp [hk] at h
    | false => simp only [hk] at h ⊢; exact ih h

lemma lookup_singleton_self {β : Type} (k : String) (v : β) :
    ([(k, v)] : List (String × β)).lookup k = some v := by
  rw [List.lookup_cons]; simp

lemma lookup_upsert (st : Store) (k : String) (env : Envelope) :
    (upsert st k env).lookup k = some env := by
  unfold upsert
  rw [lookup_append_of_none _ _ _ (lookup_filter_ne st k)]
  exact lookup_singleton_self k env

lemma lookup_mem_of_nodup {β : Type} (l : List (String × β)) (k : String) (v : β)
    (hnd : (l.map Prod.fst).Nodup) (hmem : (k, v) ∈ l) : l.lookup k = some v := by
  induction l with
  | nil => simp at hmem
  | cons a l ih =>
    obtain ⟨ak, av⟩ := a
    rw [List.map_cons, List.nodup_cons] at hnd
    rw [List.lookup_cons]
    rcases List.mem_cons.mp hmem with heq | htail
    · injection heq with h1 h2
      subst h1; subst h2
      simp
    · cases hk : (k == ak) with
      | true =>
        exfalso
        have : k = ak := by simpa using hk
        subst this
        exact hnd.1 (List.mem_map.mpr ⟨(k, v), htail, rfl⟩)
      | false => exact ih hnd.2 htail

/-! ### Helper lemmas: JavaScript string primitives -/

lemma strStartsWith_append_self : ∀ (pat r : List Char), strStartsWith (pat ++ r) pat = true := by
  intro pat
  induction pat with
  | nil => intro r; cases r <;> rfl
  | cons p ps ih => intro r; simp [strStartsWith, ih]

lemma strStartsWith_false_of_take : ∀ (u pat v : List Char),
    strStartsWith u (pat.take u.length) = false → strStartsWith (u ++ v) pat = false := by
  intro u
  induction u with
  | nil =>
    intro pat v h
    simp only [List.length_nil, List.take_zero] at h
    simp [strStartsWith] at h
  | cons c cs ih =>
    intro pat v h
    cases pat with
    | nil => simp [strStartsWith] at h
    | cons p ps =>
      simp only [List.length_cons, List.take_succ_cons, strStartsWith, Bool.and_eq_false_iff] at h
      rcases h with h | h
      · simp [strStartsWith, h]
      · simp [strStartsWith, ih ps v h]

lemma strHasSub_of_append : ∀ (a b s : List Char),
    strStartsWith s (a ++ b) = true → strHasSub b s = true := by
  intro a
  induction a with
  | nil =>
    intro b s h
    cases s with
    | nil => cases b with | nil => rfl | cons x xs => simp [strStartsWith] at h
    | cons c cs =>
      simp only [List.nil_append] at h
      simp [strHasSub, h]
  | cons x xs ih =>
    intro b s h
    cases s with
    | nil => simp [strStartsWith] at h
    | cons c cs =>
      simp only [List.cons_append, strStartsWith, Bool.and_eq_true] at h
      simp [strHasSub, ih b cs h.2]

lemma strStartsWith_eq_append : ∀ (pat s : List Char),
    strStartsWith s pat = true → s = pat ++ s.drop pat.length := by
  intro pat
  induction pat with
  | nil => intro s _; simp
  | cons p ps ih =>
    intro s h
    cases s with
    | nil => simp [strStartsWith] at h
    | cons c cs =>
      simp only [strStartsWith, Bool.and_eq_true, beq_iff_eq] at h
      simpa [h.1] using ih cs h.2

lemma removeFirstOcc_of_startsWith (pat s : List Char)
    (h : strStartsWith s pat = true) : removeFirstOcc pat s = s.drop pat.length := by
  cases s with
  | nil => cases pat <;> rfl
  | cons c cs => simp [removeFirstOcc, h]

/-! ### Helper lemmas: the serialized operation queue -/

lemma queueInv_processQueueStep (s : QueueState) (h : QueueInv s) :
    QueueInv (processQueueStep s) := by
  unfold QueueInv processQueueStep at *
  cases hf : s.inFlight with
  | some op => simpa [hf] using h
  | none =>
    cases hq : s.queue with
    | nil => simpa [hf, hq] using h
    | cons op rest => simp_all [hf, hq]

lemma queueInv_submitStep (s : QueueState) (id : Nat) (h : QueueInv s) :
    QueueInv (submitStep s id).1 := by
  unfold submitStep
  by_cases hfull : s.maxQueueSize ≤ s.queue.length
  · simpa [hfull]
  · simp only [hfull, if_false]
    apply queueInv_processQueueStep
    unfold QueueInv at *
    simp [← h]

lemma queueInv_finishStep (s : QueueState) (h : QueueInv s) :
    QueueInv (finishStep s) := by
  unfold finishStep
  cases hf : s.inFlight with
  | none => exact h
  | some op =>
    apply queueInv_processQueueStep
    unfold QueueInv at *
    simp [hf] at h
    simp [← h]

lemma queueInv_runEvents (s : QueueState) (evs : List QueueEvent) (h : QueueInv s) :
    QueueInv (runEvents s evs) := by
  induction evs generalizing s with
  | nil => exact h
  | cons e rest ih =>
    cases e with
    | submit id => exact ih _ (queueInv_submitStep s id h)
    | finish => exact ih _ (queueInv_finishStep s h)

lemma nodup_append_cons_inj {α : Type} (b : α) :
    ∀ (s1 s2 t1 t2 : List α), (s1 ++ b :: t1).Nodup → s1 ++ b :: t1 = s2 ++ b :: t2 →
      s1 = s2 := by
  intro s1
  induction s1 with
  | nil =>
    intro s2 t1 t2 hnd heq
    cases s2 with
    | nil => rfl
    | cons x s2' =>
      exfalso
      simp only [List.nil_append, List.cons_append, List.cons.injEq] at heq
      obtain ⟨hbx, ht⟩ := heq
      rw [List.nil_append, List.nodup_cons] at hnd
      refine hnd.1 ?_
      rw [ht]
      exact List.mem_append_right s2' (List.mem_cons_self b t2)
  | cons y s1' ih =>
    intro s2 t1 t2 hnd heq
    cases s2 with
    | nil =>
      exfalso
      simp only [List.cons_append, List.nil_append, List.cons.injEq] at heq
      obtain ⟨hyb, ht⟩ := heq
      rw [List.cons_append, List.nodup_cons] at hnd
      refine hnd.1 ?_
      rw [hyb]
      exact List.mem_append_right s1' (List.mem_cons_self b t1)
    | cons x s2' =>
      simp only [List.cons_append, List.cons.injEq] at heq
      obtain ⟨hyx, ht⟩ := heq
      rw [List.cons_append, List.nodup_cons] at hnd
      rw [hyx, ih s2' t1 t2 hnd.2 ht]

lemma fifo_of_inv (s : QueueState) (a b : Nat) (pre mid post : List Nat)
    (hinv : QueueInv s) (hnd : s.accepted.Nodup)
    (hdecomp : s.accepted = pre ++ a :: (mid ++ b :: post))
    (hb : s.inFlight = some b) : a ∈ s.completed := by
  unfold QueueInv at hinv
  rw [hb] at hinv
  simp only [Option.toList_some] at hinv
  have hacc : s.completed ++ b :: s.queue = s.accepted := by simpa using hinv
  have hdecomp2 : (pre ++ a :: mid) ++ b :: post = s.accepted := by
    simpa using hdecomp.symm
  have := nodup_append_cons_inj b s.completed (pre ++ a :: mid) s.queue post
    (hacc ▸ hnd) (hacc.trans hdecomp2.symm)
  rw [this]
  exact List.mem_append_right pre (List.mem_cons_self a mid)

lemma submitBurst_locked (j : Nat) : ∀ (ids : List Nat) (s : QueueState),
    s.inFlight = some j → s.queue.length + ids.length ≤ s.maxQueueSize →
    submitBurst s ids =
      ({ s with queue := s.queue ++ ids, accepted := s.accepted ++ ids },
       List.replicate ids.length none) := by
  intro ids
  induction ids with
  | nil => intro s _ _; simp [submitBurst]
  | cons id rest ih =>
    intro s hj hlen
    have hnotfull : ¬ s.maxQueueSize ≤ s.queue.length := by
      simp only [List.length_cons] at hlen; omega
    have hstep : submitStep s id =
        ({ s with queue := s.queue ++ [id], accepted := s.accepted ++ [id] }, none) := by
      unfold submitStep processQueueStep
      simp [hnotfull, hj]
    rw [submitBurst]
    simp only [hstep]
    rw [ih { s with queue := s.queue ++ [id], accepted := s.accepted ++ [id] } (by simp [hj])
      (by simp only [List.length_append, List.length_cons, List.length_nil] at hlen ⊢; omega)]
    simp [List.append_assoc, List.replicate_succ]

lemma submitBurst_append : ∀ (l1 l2 : List Nat) (s : QueueState),
    submitBurst s (l1 ++ l2) =
      ((submitBurst (submitBurst s l1).1 l2).1,
       (submitBurst s l1).2 ++ (submitBurst (submitBurst s l1).1 l2).2) := by
  intro l1
  induction l1 with
  | nil => intro l2 s; simp [submitBurst]
  | cons id rest ih =>
    intro l2 s
    simp only [List.cons_append, submitBurst]
    rw [show rest.append l2 = rest ++ l2 from rfl, ih l2 (submitStep s id).1]

/-! ### Helper lemmas: batch writes -/

lemma pgBatchLoop_error_of_any (ttlSupport : Bool) (now : Nat) (ns : String)
    (ttl : Option Nat) (insFails : String → Bool) :
    ∀ (entries : List (String × Json)) (acc : Store),
      entries.any (fun e => insFails (fullKey ns e.1)) = true →
      ∃ msg, pgBatchLoop ttlSupport now ns ttl insFails entries acc = .error msg := by
  intro entries
  induction entries with
  | nil => intro acc h; simp at h
  | cons e rest ih =>
    intro acc h
    obtain ⟨k, v⟩ := e
    rw [List.any_cons] at h
    unfold pgBatchLoop
    by_cases hk : insFails (fullKey ns k)
    · exact ⟨"insert failed", by simp [hk]⟩
    · simp only [hk, if_false]
      apply ih
      simpa [hk] using h

lemma pgBatchLoop_ok_of_none (ttlSupport : Bool) (now : Nat) (ns : String)
    (ttl : Option Nat) (insFails : String → Bool) :
    ∀ (entries : List (String × Json)) (acc : Store),
      entries.any (fun e => insFails (fullKey ns e.1)) = false →
      ∃ st2, pgBatchLoop ttlSupport now ns ttl insFails entries acc = .ok st2 := by
  intro entries
  induction entries with
  | nil => intro acc _; exact ⟨acc, rfl⟩
  | cons e rest ih =>
    intro acc h
    obtain ⟨k, v⟩ := e
    rw [List.any_cons, Bool.or_eq_false_iff] at h
    unfold pgBatchLoop
    simp only [h.1, if_false]
    exact ih _ h.2

lemma sqliteBatchLoop_ok_of_no_ser (ttlSupport : Bool) (now : Nat) (ns : String)
    (ttl : Option Nat) (runFails serFails : String → Bool) :
    ∀ (entries : List (String × Json)) (acc : Store),
      entries.all (fun e => !serFails e.1) = true →
      ∃ st2, sqliteBatchLoop ttlSupport now ns ttl runFails serFails entries acc = .ok st2 := by
  intro entries
  induction entries with
  | nil => intro acc _; exact ⟨acc, rfl⟩
  | cons e rest ih =>
    intro acc h
    obtain ⟨k, v⟩ := e
    rw [List.all_cons, Bool.and_eq_true] at h
    have hk : serFails k = false := by simpa using h.1
    unfold sqliteBatchLoop
    simp only [hk, Bool.false_eq_true, if_false]
    exact ih _ h.2

lemma sqliteBatchLoop_error_of_ser (ttlSupport : Bool) (now : Nat) (ns : String)
    (ttl : Option Nat) (runFails serFails : String → Bool) :
    ∀ (entries : List (String × Json)) (acc : Store),
      entries.any (fun e => serFails e.1) = true →
      ∃ msg, sqliteBatchLoop ttlSupport now ns ttl runFails serFails entries acc = .error msg := by
  intro entries
  induction entries with
  | nil => intro acc h; simp at h
  | cons e rest ih =>
    intro acc h
    obtain ⟨k, v⟩ := e
    rw [List.any_cons] at h
    unfold sqliteBatchLoop
    by_cases hk : serFails k
    · exact ⟨"synchronous serialization error", by simp [hk]⟩
    · simp only [hk, Bool.false_eq_true, if_false]
      apply ih
      simpa [hk] using h

/-! ### Helper lemmas: backend classification -/

lemma string_append_ne_empty (a b : String) (h : a.data ≠ []) : a ++ b ≠ "" := by
  intro heq
  apply h
  have : (a ++ b).data = ("" : String).data := by rw [heq]
  rw [String.data_append] at this
  exact (List.append_eq_nil.mp this).1

lemma classify_postgres_prefix (r : String) :
    classifyPath ("postgres://" ++ r) = .ok .postgresql := by
  have h1 : strStartsWith (['p','o','s','t','g','r','e','s',':','/','/'] ++ r.data)
      ['p','o','s','t','g','r','e','s',':','/','/'] = true :=
    strStartsWith_append_self _ _
  have h2 : strStartsWith (['p','o','s','t','g','r','e','s',':','/','/'] ++ r.data)
      ['s','q','l','i','t','e',':','/','/'] = false :=
    strStartsWith_false_of_take _ _ _ (by decide)
  simp only [List.cons_append, List.nil_append] at h1 h2
  simp only [classifyPath, String.data_append]
  simp [h1, h2]

lemma classify_postgresql_prefix (r : String) :
    classifyPath ("postgresql://" ++ r) = .ok .postgresql := by
  have h1 : strStartsWith (['p','o','s','t','g','r','e','s','q','l',':','/','/'] ++ r.data)
      ['p','o','s','t','g','r','e','s','q','l',':','/','/'] = true :=
    strStartsWith_append_self _ _
  have h2 : strStartsWith (['p','o','s','t','g','r','e','s','q','l',':','/','/'] ++ r.data)
      ['s','q','l','i','t','e',':','/','/'] = false :=
    strStartsWith_false_of_take _ _ _ (by decide)
  simp only [List.cons_append, List.nil_append] at h1 h2
  simp only [classifyPath, String.data_append]
  simp [h1, h2]

lemma classify_sqlite_prefix (r : String) :
    classifyPath ("sqlite://" ++ r) = .ok .sqlite := by
  have h1 : strStartsWith (['s','q','l','i','t','e',':','/','/'] ++ r.data)
      ['s','q','l','i','t','e',':','/','/'] = true :=
    strStartsWith_append_self _ _
  simp only [List.cons_append, List.nil_append] at h1
  simp only [classifyPath, String.data_append]
  simp [h1]

lemma classify_bare_path (s : String) (hsub : strHasSub "://".data s.data = false) :
    classifyPath s = .ok .sqlite := by
  have h1 : strStartsWith s.data "postgresql://".data = false := by
    cases h : strStartsWith s.data "postgresql://".data with
    | false => rfl
    | true =>
      exfalso
      have := strHasSub_of_append "postgresql".data "://".data s.data
        (by rw [show "postgresql".data ++ "://".data = "postgresql://".data from rfl]; exact h)
      rw [this] at hsub
      exact absurd hsub (by simp)
  have h2 : strStartsWith s.data "postgres://".data = false := by
    cases h : strStartsWith s.data "postgres://".data with
    | false => rfl
    | true =>
      exfalso
      have := strHasSub_of_append "postgres".data "://".data s.data
        (by rw [show "postgres".data ++ "://".data = "postgres://".data from rfl]; exact h)
      rw [this] at hsub
      exact absurd hsub (by simp)
  have hsub' : strHasSub [':','/','/'] s.data = false := hsub
  have h1' : strStartsWith s.data ['p','o','s','t','g','r','e','s','q','l',':','/','/'] = false := h1
  have h2' : strStartsWith s.data ['p','o','s','t','g','r','e','s',':','/','/'] = false := h2
  simp only [classifyPath]
  simp [h1', h2', hsub']

lemma set_def (ttlSupport : Bool) (now : Nat) (ns : String) (st : Store)
    (key : String) (v : Json) (ttl : Option Nat) :
    set ttlSupport now ns st key v ttl =
      if key = "" then .error "Key is required"
      else .ok (upsert st (fullKey ns key) { value := v, expires := setExpires ttlSupport now ttl }) :=
  rfl

lemma submitBurst_single (s : QueueState) (x : Nat) :
    submitBurst s [x] = ((submitStep s x).1, [(submitStep s x).2]) := by
  simp [submitBurst]

/-! ### Claim theorems -/

/-- Claim C1, counterexample: the claim asserts that every public storage
method runs through the serialized operation queue on both backend
kinds, but the PostgreSQL branch of `get` (lines 424-446) awaits
`this.pool.query` directly and never calls `executeQuery`, so queue
serialization does not apply to it. -/
theorem c1_counterexample_postgres_bypasses_queue :
    usesOperationQueue DbType.postgresql StorageMethod.get = false := rfl

/-- Claim C1, amended: on the embedded SQLite backend every public
storage method routes its backend call through `executeQuery`, and the
queue executes admitted operations one at a time in strict FIFO order:
the ordering invariant is preserved by every submit/finish trace, and
whenever operation `b` occupies the single in-flight slot, every
operation accepted before `b` has already completed its backend call.
PostgreSQL-backend methods bypass the queue entirely. -/
theorem c1_sqlite_queue_serialized_fifo :
    (∀ m : StorageMethod, usesOperationQueue DbType.sqlite m = true) ∧
    (∀ (s0 : QueueState) (evs : List QueueEvent),
      QueueInv s0 → QueueInv (runEvents s0 evs)) ∧
    (∀ (s0 : QueueState) (evs : List QueueEvent) (a b : Nat) (pre mid post : List Nat),
      QueueInv s0 → ((runEvents s0 evs).accepted).Nodup →
      (runEvents s0 evs).accepted = pre ++ a :: (mid ++ b :: post) →
      (runEvents s0 evs).inFlight = some b →
      a ∈ (runEvents s0 evs).completed) := by
  refine ⟨fun m => by cases m <;> rfl, fun s0 evs h => queueInv_runEvents s0 evs h, ?_⟩
  intro s0 evs a b pre mid post h0 hnd hdec hb
  exact fifo_of_inv _ a b pre mid post (queueInv_runEvents s0 evs h0) hnd hdec hb

/-- Claim C1 witness: on a fresh SQLite handle, after submitting
operation 1 and letting the in-flight constructor operation 0 settle,
operation 1 is in flight and operation 0 — accepted earlier — has
completed. -/
theorem c1_witness :
    (0 : Nat) ∈ (runEvents freshSqliteHandleState [.submit 1, .finish]).completed :=
  c1_sqlite_queue_serialized_fifo.2.2 freshSqliteHandleState [.submit 1, .finish] 0 1 [] [] []
    (by unfold QueueInv freshSqliteHandleState; rfl) (by decide) (by decide) (by decide)

/-- Claim C3, confirmed: a submission finding the pending queue at
`maxQueueSize` rejects with the queue-full error before being queued and
without reaching the backend (the state, including the admission
history, is unchanged); and on a fresh SQLite handle — whose
constructor-enqueued initialization operation occupies the in-flight
slot — a synchronous burst of 10,001 submissions has exactly the
10,001st rejected. -/
theorem c3_queue_full_rejection (s : QueueState) (id : Nat)
    (hfull : s.maxQueueSize ≤ s.queue.length)
    (ids : List Nat) (hlen : ids.length = 10001) :
    submitStep s id = (s, some "Database queue is full") ∧
    (submitBurst freshSqliteHandleState ids).2 =
      List.replicate 10000 none ++ [some "Database queue is full"] := by
  constructor
  · unfold submitStep
    simp [hfull]
  · have hsplit : ids.take 10000 ++ ids.drop 10000 = ids := List.take_append_drop _ _
    have hlt : (ids.take 10000).length = 10000 := by rw [List.length_take]; omega
    have hd : (ids.drop 10000).length = 1 := by rw [List.length_drop]; omega
    obtain ⟨x, hx⟩ := List.length_eq_one.mp hd
    have hburst := submitBurst_locked 0 (ids.take 10000) freshSqliteHandleState rfl
      (by simp [freshSqliteHandleState, hlt])
    have hrej : submitStep
        { freshSqliteHandleState with
            queue := freshSqliteHandleState.queue ++ ids.take 10000,
            accepted := freshSqliteHandleState.accepted ++ ids.take 10000 } x =
        ({ freshSqliteHandleState with
            queue := freshSqliteHandleState.queue ++ ids.take 10000,
            accepted := freshSqliteHandleState.accepted ++ ids.take 10000 },
         some "Database queue is full") := by
      unfold submitStep
      rw [if_pos (by simp [freshSqliteHandleState, hlt])]
    rw [← hsplit, submitBurst_append, hburst, hx]
    dsimp only
    rw [hlt, submitBurst_single, hrej]

/-- Claim C3 witness: a full queue rejects the next submission, and the
burst of submissions 0..10000 on a fresh SQLite handle is accepted for
the first 10,000 and rejected exactly at the 10,001st. -/
theorem c3_witness :
    submitStep ⟨[5], none, [], [5], 1⟩ 7 = (⟨[5], none, [], [5], 1⟩, some "Database queue is full") ∧
    (submitBurst freshSqliteHandleState (List.range 10001)).2 =
      List.replicate 10000 none ++ [some "Database queue is full"] :=
  c3_queue_full_rejection ⟨[5], none, [], [5], 1⟩ 7 (by decide) (List.range 10001) (by simp)

/-- Claim C9, counterexample: the claim says every completed operation,
success or failure, adds its elapsed time and increments the count; but
`processQueue`'s catch path never calls `updateStats`, so a failed
operation of 5 ms leaves the statistics at `(7, 3)` instead of the
claimed `(12, 4)`. -/
theorem c9_counterexample_failure_skips_stats :
    completeOperation ⟨7, 3⟩ false 5 = ⟨7, 3⟩ := rfl

/-- Claim C9, amended: only successfully completed queued operations
update the rolling statistics (cumulative time and count); failed
operations leave them untouched; and once the incremented count exceeds
1,000,000 the statistics reset to the most recent sample's time with a
count of 1. -/
theorem c9_amended (s : Stats) (t : Nat) :
    (completeOperation s false t = s) ∧
    (s.operationCount + 1 ≤ 1000000 →
      completeOperation s true t =
        ⟨s.totalOperationTime + t, s.operationCount + 1⟩) ∧
    (1000000 < s.operationCount + 1 →
      completeOperation s true t = ⟨t, 1⟩) := by
  refine ⟨rfl, fun h => ?_, fun h => ?_⟩
  · show updateStats s t = _
    unfold updateStats
    rw [if_neg (by simpa using by omega)]
  · show updateStats s t = _
    unfold updateStats
    rw [if_pos (by simpa using by omega)]

/-- Claim C9 witness: a successful 5 ms operation advances `(3, 2)` to
`(8, 3)`, and a failed one leaves `(3, 2)` unchanged. -/
theorem c9_witness :
    completeOperation ⟨3, 2⟩ true 5 = ⟨8, 3⟩ ∧ completeOperation ⟨3, 2⟩ false 5 = ⟨3, 2⟩ :=
  ⟨(c9_amended ⟨3, 2⟩ 5).2.1 (by norm_num), (c9_amended ⟨3, 2⟩ 5).1⟩

/-- Claim C10, confirmed: the constructor hard-codes `ttlSupport` to
`false` and evaluates the sweep guard while it is still `false`, so the
periodic `cleanupExpired` interval is never scheduled — flipping the
flag after construction cannot schedule it retroactively — and under
default construction `set` records no `expires` timestamp for any `ttl`
argument. -/
theorem c10_sweep_never_scheduled :
    constructorInit.ttlSupport = false ∧
    constructorInit.sweepScheduled = false ∧
    (∀ later : Bool,
      ({ constructorInit with ttlSupport := later } : HandleInit).sweepScheduled = false) ∧
    (∀ (now : Nat) (ns : String) (st : Store) (key : String) (v : Json) (ttl : Option Nat),
      set constructorInit.ttlSupport now ns st key v ttl =
        set constructorInit.ttlSupport now ns st key v none) ∧
    (∀ (now : Nat) (ttl : Option Nat),
      setExpires constructorInit.ttlSupport now ttl = none) := by
  refine ⟨rfl, rfl, fun later => rfl, fun now ns st key v ttl => ?_, fun now ttl => ?_⟩
  · rw [set_def, set_def]
    rw [show setExpires constructorInit.ttlSupport now ttl = none by
      cases ttl <;> simp [setExpires, constructorInit]]
    rw [show setExpires constructorInit.ttlSupport now none = none from rfl]
  · cases ttl <;> simp [setExpires, constructorInit]

lemma get_def (ttlSupport : Bool) (now : Nat) (ns : String) (st : Store) (key : String) :
    get ttlSupport now ns st key =
      if key = "" then .error "Key is required"
      else .ok (getValue ttlSupport now ns st key) :=
  rfl

lemma has_def (ns : String) (st : Store) (key : String) :
    has ns st key =
      if key = "" then .error "Key is required"
      else .ok (st.lookup (fullKey ns key)).isSome :=
  rfl

/-- Claim C4, confirmed: for every non-empty key and JSON value, `set`
followed by `get` on the resulting store — with no intervening write,
delete, or expiry — returns exactly the stored value, on any handle
configuration and at any later read time (a two-argument `set` records
no expiry, so the envelope can never be expired). -/
theorem c4_set_get_roundtrip (ttlSupport : Bool) (now now2 : Nat) (ns : String)
    (st : Store) (key : String) (v : Json) (hk : key ≠ "") :
    set ttlSupport now ns st key v none =
      .ok (upsert st (fullKey ns key) { value := v, expires := none }) ∧
    get ttlSupport now2 ns (upsert st (fullKey ns key) { value := v, expires := none }) key =
      .ok (some v) := by
  constructor
  · rw [set_def, if_neg hk]
    rfl
  · rw [get_def, if_neg hk]
    unfold getValue
    rw [lookup_upsert]
    simp [isExpired]

/-- Claim C4 witness: `set("a", ` the object `{x: 1})` then `get("a")`
returns `{x: 1}` (Scenario A). -/
theorem c4_witness :
    set false 0 "heliactyl" [] "a" (.obj [("x", .num 1)]) none =
      .ok (upsert [] (fullKey "heliactyl" "a") { value := .obj [("x", .num 1)], expires := none }) ∧
    get false 5 "heliactyl"
      (upsert [] (fullKey "heliactyl" "a") { value := .obj [("x", .num 1)], expires := none }) "a" =
      .ok (some (.obj [("x", .num 1)])) :=
  c4_set_get_roundtrip false 0 5 "heliactyl" [] "a" (.obj [("x", .num 1)]) (by decide)

/-- Claim C2, counterexample: with TTL support enabled, a stored row
whose `expires` (50) is before `now` (60) is treated as absent by `get`,
but `has` — which only runs `SELECT 1 ... WHERE key = ?` and never
inspects the envelope — still answers `true`, contradicting the claim
that every read path, `has` included, treats the row as absent. -/
theorem c2_counterexample_has_ignores_expiry :
    isExpired true { value := .num 1, expires := some 50 } 60 = true ∧
    getValue true 60 "heliactyl" [("heliactyl:a", { value := .num 1, expires := some 50 })] "a" =
      none ∧
    has "heliactyl" [("heliactyl:a", { value := .num 1, expires := some 50 })] "a" = .ok true :=
  ⟨rfl, rfl, rfl⟩

/-- Claim C2, amended: with TTL support enabled, an expired row is
treated as absent by `get` and omitted by `getAll`; `has`, however,
reports physical row presence and answers `true` until the row is
actually deleted — in the scripted scenario `has` answers `false` only
once the lazy delete triggered by the preceding `get` has removed the
row. -/
theorem c2_expired_read_paths (now : Nat) (ns : String) (st : Store) (key : String)
    (env : Envelope) (hk : key ≠ "")
    (hlk : st.lookup (fullKey ns key) = some env)
    (hexp : isExpired true env now = true)
    (hnd : (st.map Prod.fst).Nodup) :
    getValue true now ns st key = none ∧
    (∀ v, (key, v) ∉ getAll true now ns st) ∧
    has ns st key = .ok true ∧
    has ns (deleteRow ns st key) key = .ok false := by
  refine ⟨?_, ?_, ?_, ?_⟩
  · unfold getValue
    rw [hlk]
    simp [hexp]
  · intro v hmem
    unfold getAll at hmem
    rw [List.mem_filterMap] at hmem
    obtain ⟨row, hrowmem, hfrow⟩ := hmem
    rw [List.mem_filter] at hrowmem
    obtain ⟨hrowst, hpre⟩ := hrowmem
    simp only at hpre hfrow
    cases hex : isExpired true row.2 now with
    | true => rw [if_pos hex] at hfrow; exact Option.noConfusion hfrow
    | false =>
      rw [if_neg (by rw [hex]; exact Bool.false_ne_true)] at hfrow
      injection hfrow with hkv
      have hkey : String.mk (removeFirstOcc (ns ++ ":").data row.1.data) = key :=
        congrArg Prod.fst hkv
      have hrow1 : row.1.data = (ns ++ ":").data ++ row.1.data.drop (ns ++ ":").data.length :=
        strStartsWith_eq_append _ _ hpre
      have hrem : removeFirstOcc (ns ++ ":").data row.1.data =
          row.1.data.drop (ns ++ ":").data.length :=
        removeFirstOcc_of_startsWith _ _ hpre
      have hdata : row.1.data.drop (ns ++ ":").data.length = key.data := by
        have := congrArg String.data hkey
        rwa [hrem] at this
      have hrowkey : row.1 = fullKey ns key := by
        apply String.ext
        rw [hrow1, hdata]
        simp [fullKey, String.data_append]
      have hmemfk : (fullKey ns key, row.2) ∈ st := by
        rw [← hrowkey]
        exact hrowst
      have hlk2 := lookup_mem_of_nodup st (fullKey ns key) row.2 hnd hmemfk
      rw [hlk] at hlk2
      injection hlk2 with henv
      rw [henv] at hexp
      rw [hexp] at hex
      exact Bool.true_eq_false ▸ hex
  · rw [has_def, if_neg hk, hlk]
    rfl
  · rw [has_def, if_neg hk]
    unfold deleteRow
    rw [lookup_filter_ne]
    rfl

/-- Claim C2 witness: the scripted scenario on a concrete store — the
expired row is absent for `get` and `getAll`, present for `has`, and
absent for `has` after the lazy delete. -/
theorem c2_witness :
    getValue true 60 "heliactyl" [("heliactyl:a", { value := .num 1, expires := some 50 })] "a" =
      none ∧
    ("a", Json.num 1) ∉
      getAll true 60 "heliactyl" [("heliactyl:a", { value := .num 1, expires := some 50 })] ∧
    has "heliactyl" [("heliactyl:a", { value := .num 1, expires := some 50 })] "a" = .ok true ∧
    has "heliactyl"
      (deleteRow "heliactyl" [("heliactyl:a", { value := .num 1, expires := some 50 })] "a") "a" =
      .ok false := by
  have h := c2_expired_read_paths 60 "heliactyl"
    [("heliactyl:a", { value := .num 1, expires := some 50 })] "a"
    { value := .num 1, expires := some 50 } (by decide) rfl rfl (by decide)
  exact ⟨h.1, h.2.1 (Json.num 1), h.2.2.1, h.2.2.2⟩

lemma jsOrZero_num (n : Int) : jsOrZero (some (.num n)) = .num n := by
  by_cases h : n = 0 <;> simp [jsOrZero, jsFalsy, h]

/-- Claim C6, counterexample: the claim says `increment` rejects when
the existing stored value is not numeric, but `await this.get(key) || 0`
coerces every falsy stored value to `0` first: incrementing a key whose
stored value is the non-numeric `false` succeeds and overwrites it with
the amount instead of rejecting. -/
theorem c6_counterexample_falsy_not_rejected :
    increment false 0 "heliactyl"
      [("heliactyl:counter", { value := .bool false, expires := none })] "counter" 3 =
      .ok ([("heliactyl:counter", { value := .num 3, expires := none })], 3) := rfl

/-- Claim C6, amended: `increment` reads the current value, treats an
absent — or any falsy — stored value as 0, rejects only a remaining
truthy non-numeric value, writes back `current + amount` and returns it;
in particular `set("counter", 5)` then `increment("counter", 3)` returns
8 and `get("counter")` then yields 8. -/
theorem c6_increment (ttlSupport : Bool) (now : Nat) (ns : String) (st : Store)
    (key : String) (amount n : Int) (hk : key ≠ "") :
    (getValue ttlSupport now ns st key = some (.num n) →
      increment ttlSupport now ns st key amount =
        .ok (upsert st (fullKey ns key) { value := .num (n + amount), expires := none },
             n + amount)) ∧
    (∀ j, getValue ttlSupport now ns st key = some j → jsFalsy j = false →
      (∀ m : Int, j ≠ .num m) →
      increment ttlSupport now ns st key amount = .error "Value must be a number to increment") ∧
    (getValue ttlSupport now ns st key = none →
      increment ttlSupport now ns st key amount =
        .ok (upsert st (fullKey ns key) { value := .num amount, expires := none }, amount)) ∧
    (set false 0 "heliactyl" [] "counter" (.num 5) none =
      .ok [("heliactyl:counter", { value := .num 5, expires := none })]) ∧
    (increment false 0 "heliactyl"
      [("heliactyl:counter", { value := .num 5, expires := none })] "counter" 3 =
      .ok ([("heliactyl:counter", { value := .num 8, expires := none })], 8)) ∧
    (getValue false 0 "heliactyl"
      [("heliactyl:counter", { value := .num 8, expires := none })] "counter" =
      some (.num 8)) := by
  refine ⟨fun h => ?_, fun j h hfalsy hnum => ?_, fun h => ?_, rfl, rfl, rfl⟩
  · unfold increment
    rw [get_def, if_neg hk, h]
    dsimp only
    rw [jsOrZero_num]
    dsimp only
    rw [set_def, if_neg hk]
    rfl
  · unfold increment
    rw [get_def, if_neg hk, h]
    dsimp only
    rw [show jsOrZero (some j) = j by simp [jsOrZero, hfalsy]]
    cases j with
    | num m => exact absurd rfl (hnum m)
    | null => simp [jsFalsy] at hfalsy
    | bool b => rfl
    | str s => rfl
    | arr elems => rfl
    | obj fields => rfl
  · unfold increment
    rw [get_def, if_neg hk, h]
    dsimp only
    rw [show jsOrZero none = Json.num 0 from rfl]
    dsimp only
    rw [set_def, if_neg hk]
    dsimp only
    rw [show (0 : Int) + amount = amount by omega]
    rfl

/-- Claim C6 witness: incrementing a key holding the truthy non-numeric
string value x rejects with the numeric-value error. -/
theorem c6_witness :
    increment false 0 "heliactyl" [("heliactyl:k", { value := .str "x", expires := none })] "k" 3 =
      .error "Value must be a number to increment" :=
  (c6_increment false 0 "heliactyl" [("heliactyl:k", { value := .str "x", expires := none })]
    "k" 3 0 (by decide)).2.1 (.str "x") rfl rfl (fun m h => Json.noConfusion h)

/-- Claim C7, counterexample: the claim says that on both backend kinds
the expired-row delete triggered by `get` is fire-and-forget, its
failure only logged and never surfaced; but the PostgreSQL branch
executes `await this.delete(key)` inside its `try`, so a failing delete
rejects the `get` call itself with `Failed to get value: ...`. -/
theorem c7_counterexample_postgres_surfaces_delete_failure :
    (getPostgres true 60 "heliactyl"
      [("heliactyl:a", { value := .num 1, expires := some 50 })] "a" true).1 =
      .error "Failed to get value: Failed to delete value" := rfl

/-- Claim C7, amended: on an expired row, the SQLite branch of `get`
resolves `undefined` no matter how the detached delete fares (a failed
delete is only logged and leaves the row in place; a successful one
removes it), while the PostgreSQL branch awaits the delete: it returns
`undefined` and removes the row when the delete succeeds, but surfaces
an error to the caller when the delete fails. -/
theorem c7_expired_delete_behaviour (ttlSupport : Bool) (now : Nat) (ns : String)
    (st : Store) (key : String) (env : Envelope) (hk : key ≠ "")
    (hlk : st.lookup (fullKey ns key) = some env)
    (hexp : isExpired ttlSupport env now = true) :
    (∀ deleteFails, (getSqlite ttlSupport now ns st key deleteFails).1 = .ok none) ∧
    ((getSqlite ttlSupport now ns st key true).2 = st) ∧
    ((getSqlite ttlSupport now ns st key false).2 = deleteRow ns st key) ∧
    ((getPostgres ttlSupport now ns st key false).1 = .ok none) ∧
    ((getPostgres ttlSupport now ns st key false).2 = deleteRow ns st key) ∧
    (∃ e, (getPostgres ttlSupport now ns st key true).1 = .error e) := by
  refine ⟨fun deleteFails => ?_, ?_, ?_, ?_, ?_, ⟨"Failed to get value: Failed to delete value", ?_⟩⟩ <;>
    simp [getSqlite, getPostgres, hk, hlk, hexp]

/-- Claim C7 witness: concrete expired row — the SQLite `get` resolves
`undefined` even when its detached delete fails, while the PostgreSQL
`get` rejects when the awaited delete fails. -/
theorem c7_witness :
    (getSqlite true 60 "heliactyl"
      [("heliactyl:a", { value := .num 1, expires := some 50 })] "a" true).1 = .ok none ∧
    (∃ e, (getPostgres true 60 "heliactyl"
      [("heliactyl:a", { value := .num 1, expires := some 50 })] "a" true).1 = .error e) := by
  have h := c7_expired_delete_behaviour true 60 "heliactyl"
    [("heliactyl:a", { value := .num 1, expires := some 50 })] "a"
    { value := .num 1, expires := some 50 } (by decide) rfl rfl
  exact ⟨h.1 true, h.2.2.2.2.2⟩

/-- Claim C5, counterexample: the claim says a failing entry rolls back
the whole batch on both backend kinds; but the SQLite branch issues
`stmt.run` with no completion callback, so when the backend rejects
entry `a`, the loop continues, `COMMIT` persists entry `b`, and the call
even resolves successfully. -/
theorem c5_counterexample_sqlite_partial_batch :
    setMultipleSqlite false 0 "heliactyl" [] [("a", .num 1), ("b", .num 2)] none
      (fun fk => fk == "heliactyl:a") (fun _ => false) =
      (.ok (), [("heliactyl:b", { value := .num 2, expires := none })]) := rfl

/-- Claim C5, amended: on PostgreSQL, `setMultiple` is transactional —
any failing entry makes the whole call reject and the rollback leaves
the store exactly as before; on SQLite only a synchronous serialization
throw triggers rollback (rejecting with the store unchanged), while
backend write failures of individual entries are unobserved: the commit
still resolves the call successfully. -/
theorem c5_batch_atomicity (ttlSupport : Bool) (now : Nat) (ns : String) (st : Store)
    (entries : List (String × Json)) (ttl : Option Nat)
    (insFails runFails serFails serFails2 : String → Bool)
    (hfail : entries.any (fun e => insFails (fullKey ns e.1)) = true)
    (hser : entries.all (fun e => !serFails e.1) = true)
    (hser2 : entries.any (fun e => serFails2 e.1) = true) :
    (∃ msg, setMultiplePostgres ttlSupport now ns st entries ttl insFails = (.error msg, st)) ∧
    (∃ st2, setMultipleSqlite ttlSupport now ns st entries ttl runFails serFails = (.ok (), st2)) ∧
    (∃ msg, setMultipleSqlite ttlSupport now ns st entries ttl runFails serFails2 =
      (.error msg, st)) := by
  refine ⟨?_, ?_, ?_⟩
  · obtain ⟨msg, hm⟩ := pgBatchLoop_error_of_any ttlSupport now ns ttl insFails entries st hfail
    exact ⟨"Failed to set multiple values: " ++ msg, by unfold setMultiplePostgres; rw [hm]⟩
  · obtain ⟨st2, hm⟩ :=
      sqliteBatchLoop_ok_of_no_ser ttlSupport now ns ttl runFails serFails entries st hser
    exact ⟨st2, by unfold setMultipleSqlite; rw [hm]⟩
  · obtain ⟨msg, hm⟩ :=
      sqliteBatchLoop_error_of_ser ttlSupport now ns ttl runFails serFails2 entries st hser2
    exact ⟨msg, by unfold setMultipleSqlite; rw [hm]⟩

/-- Claim C5 witness: a two-entry batch whose first entry's insert the
backend rejects — PostgreSQL rolls the whole batch back and rejects,
SQLite resolves successfully anyway; and a batch with a synchronous
serialization error rolls back on SQLite. -/
theorem c5_witness :
    (∃ msg, setMultiplePostgres false 0 "heliactyl" [] [("a", .num 1), ("b", .num 2)] none
      (fun fk => fk == "heliactyl:a") = (.error msg, [])) ∧
    (∃ st2, setMultipleSqlite false 0 "heliactyl" [] [("a", .num 1), ("b", .num 2)] none
      (fun fk => fk == "heliactyl:a") (fun _ => false) = (.ok (), st2)) ∧
    (∃ msg, setMultipleSqlite false 0 "heliactyl" [] [("a", .num 1), ("b", .num 2)] none
      (fun fk => fk == "heliactyl:a") (fun key => key == "a") = (.error msg, [])) :=
  c5_batch_atomicity false 0 "heliactyl" [] [("a", .num 1), ("b", .num 2)] none
    (fun fk => fk == "heliactyl:a") (fun fk => fk == "heliactyl:a") (fun _ => false)
    (fun key => key == "a") (by decide) (by decide) (by decide)

/-- Claim C8, confirmed: the constructor classifies every descriptor
into exactly one backend kind — `postgres://`/`postgresql://` strings
select PostgreSQL; `sqlite://` strings and non-empty bare paths without
`://` select SQLite; an object with a (non-empty string) `url` field is
unwrapped and classified identically; and a missing/empty descriptor, a
non-string non-object value, an object without a usable `url`, or a
string with an unrecognized scheme all make construction fail. -/
theorem c8_backend_classification :
    (∀ r : String, constructorModel (.string ("postgres://" ++ r)) = .ok .postgresql) ∧
    (∀ r : String, constructorModel (.string ("postgresql://" ++ r)) = .ok .postgresql) ∧
    (∀ r : String, constructorModel (.string ("sqlite://" ++ r)) = .ok .sqlite) ∧
    (∀ s : String, s ≠ "" → strHasSub "://".data s.data = false →
      constructorModel (.string s) = .ok .sqlite) ∧
    (∀ u : String, u ≠ "" →
      constructorModel (.object (some (.string u))) = constructorModel (.string u)) ∧
    (∀ s : String, s ≠ "" →
      strStartsWith s.data "sqlite://".data = false →
      strStartsWith s.data "postgresql://".data = false →
      strStartsWith s.data "postgres://".data = false →
      strHasSub "://".data s.data = true →
      constructorModel (.string s) = .error "Unsupported database type") ∧
    (constructorModel .undef = .error "Database path is required") ∧
    (constructorModel .nullv = .error "Database path is required") ∧
    (constructorModel (.string "") = .error "Database path is required") ∧
    (∀ b : Bool, ∃ e, constructorModel (.boolean b) = .error e) ∧
    (∀ n : Int, ∃ e, constructorModel (.number n) = .error e) ∧
    (∃ e, constructorModel (.object none) = .error e) := by
  refine ⟨?_, ?_, ?_, ?_, ?_, ?_, rfl, rfl, rfl, ?_, ?_, ⟨_, rfl⟩⟩
  · intro r
    have hne : ("postgres://" ++ r) ≠ "" := string_append_ne_empty _ _ (by decide)
    simp [constructorModel, jsConfigFalsy, extractPath, hne, classify_postgres_prefix r]
  · intro r
    have hne : ("postgresql://" ++ r) ≠ "" := string_append_ne_empty _ _ (by decide)
    simp [constructorModel, jsConfigFalsy, extractPath, hne, classify_postgresql_prefix r]
  · intro r
    have hne : ("sqlite://" ++ r) ≠ "" := string_append_ne_empty _ _ (by decide)
    simp [constructorModel, jsConfigFalsy, extractPath, hne, classify_sqlite_prefix r]
  · intro s hs hsub
    simp [constructorModel, jsConfigFalsy, extractPath, hs, classify_bare_path s hsub]
  · intro u hu
    simp [constructorModel, jsConfigFalsy, extractPath, hu]
  · intro s hs h1 h2 h3 hsub
    have h1' : strStartsWith s.data ['s','q','l','i','t','e',':','/','/'] = false := h1
    have h2' : strStartsWith s.data ['p','o','s','t','g','r','e','s','q','l',':','/','/'] = false := h2
    have h3' : strStartsWith s.data ['p','o','s','t','g','r','e','s',':','/','/'] = false := h3
    have hsub' : strHasSub [':','/','/'] s.data = true := hsub
    simp [constructorModel, jsConfigFalsy, extractPath, hs, classifyPath, h1', h2', h3', hsub']
  · intro b
    cases b
    · exact ⟨_, rfl⟩
    · exact ⟨_, rfl⟩
  · intro n
    by_cases h : n = 0
    · subst h; exact ⟨_, rfl⟩
    · exact ⟨"Database path must be a string or an object with a url property",
        by simp [constructorModel, jsConfigFalsy, extractPath, h]⟩

/-- Claim C8 witness: concrete classifications — a PostgreSQL URL, a
bare filesystem path, an unwrapped object config, and an unsupported
scheme. -/
theorem c8_witness :
    constructorModel (.string "postgres://user@host/db") = .ok .postgresql ∧
    constructorModel (.string "heliactyl.db") = .ok .sqlite ∧
    constructorModel (.object (some (.string "sqlite://heliactyl.db"))) =
      constructorModel (.string "sqlite://heliactyl.db") ∧
    constructorModel (.string "mysql://host/db") = .error "Unsupported database type" :=
  ⟨c8_backend_classification.1 "user@host/db",
   c8_backend_classification.2.2.2.1 "heliactyl.db" (by decide) (by decide),
   c8_backend_classification.2.2.2.2.1 "sqlite://heliactyl.db" (by decide),
   c8_backend_classification.2.2.2.2.2.1 "mysql://host/db" (by decide) (by decide) (by decide)
     (by decide) (by decide)⟩
